import Mathlib

/-!
Shallow embedding of `easy_thumbnails/processors.py` (the geometry and
compositing decision engine of the thumbnail pipeline), together with
theorems settling the specification claims about it.

Python floats are modelled as `ℚ` (all divisions relevant to the claims are
exact), Python ints as `ℤ`/`ℕ`.  Python `//` is floor division; every divisor
appearing in the source is a positive literal, for which floor division
coincides with `Int.ediv`, i.e. Lean's `/` on `ℤ`.  Fallible Python code is
modelled with `Except String`, the error string naming the Python exception.
-/

/-- Python `int(x)` on a float: truncation toward zero. -/
def pyTrunc (q : ℚ) : ℤ := if q < 0 then -⌊-q⌋ else ⌊q⌋

/-- Python 3 `round(x)`: round half to even (banker's rounding).  The claims
never evaluate it at a half-integer, where Python 2 (round half away from
zero) would differ. -/
def pyRound (q : ℚ) : ℤ :=
  if q - ⌊q⌋ < 1/2 then ⌊q⌋
  else if (1:ℚ)/2 < q - ⌊q⌋ then ⌊q⌋ + 1
  else if ⌊q⌋ % 2 = 0 then ⌊q⌋ else ⌊q⌋ + 1

/-- `scale_and_crop`, lines 142-145: scale selection.  `crop` is the Python
truthiness of the `crop` argument (`False`/`None`/`""` are falsy, `True` and
the mode strings `"smart"`, `"scale"`, `"x,y"` are truthy); `not target_x`
is `target_x = 0`. -/
def sc_scale (source_x source_y target_x target_y : ℚ) (crop : Bool) : ℚ :=
  if crop = true ∨ target_x = 0 ∨ target_y = 0 then
    max (target_x / source_x) (target_y / source_y)
  else
    min (target_x / source_x) (target_y / source_y)

/-- `scale_and_crop`, lines 147-151: handle one-dimensional targets.  Note the
`elif`: when `target_x` is zero only `target_x` is rewritten. -/
def derive_targets (source_x source_y target_x target_y scale : ℚ) : ℚ × ℚ :=
  if target_x = 0 then (source_x * scale, target_y)
  else if target_y = 0 then (target_x, source_y * scale)
  else (target_x, target_y)

/-- `scale_and_crop`, line 153: the resize guard
`if scale < 1.0 or (scale > 1.0 and upscale)`. -/
def resize_invoked (scale : ℚ) (upscale : Bool) : Bool :=
  decide (scale < 1) || (decide (1 < scale) && upscale)

/-- `scale_and_crop`, lines 164-165: per-axis difference between the
post-resize size and the requested size,
`diff = int(source - min(source, target))`. -/
def diff_axis (source : ℤ) (target : ℚ) : ℤ :=
  pyTrunc ((source : ℚ) - min (source : ℚ) target)

/-- `scale_and_crop`, lines 168-171: the default (centered) crop box
`[halfdiff_x, halfdiff_y, min(source_x, int(target_x) + halfdiff_x),
min(source_y, int(target_y) + halfdiff_y)]`. -/
def centered_box (source_x source_y : ℤ) (target_x target_y : ℚ) :
    ℤ × ℤ × ℤ × ℤ :=
  let halfdiff_x := diff_axis source_x target_x / 2
  let halfdiff_y := diff_axis source_y target_y / 2
  (halfdiff_x, halfdiff_y,
   min source_x (pyTrunc target_x + halfdiff_x),
   min source_y (pyTrunc target_y + halfdiff_y))

/-- Size effect of the crop block (lines 160-217) in the default centered
mode: `if diff_x or diff_y:` build the centered box and crop to it, else the
image is left untouched. -/
def crop_block_size (source_x source_y : ℤ) (target_x target_y : ℚ) :
    ℤ × ℤ :=
  if diff_axis source_x target_x ≠ 0 ∨ diff_axis source_y target_y ≠ 0 then
    let b := centered_box source_x source_y target_x target_y
    (b.2.2.1 - b.1, b.2.2.2 - b.2.1)
  else (source_x, source_y)

/-- Size semantics of `scale_and_crop` (lines 139-217) with `crop` a boolean
(plain centered cropping; the edge/smart string modes are modelled separately
by `edge_box` and `smart_axis_loop`).  A zero source axis makes
`target/source` raise `ZeroDivisionError` in Python. -/
def scale_and_crop_size (source_x source_y target_x target_y : ℕ)
    (crop upscale : Bool) : Except String (ℤ × ℤ) :=
  if source_x = 0 ∨ source_y = 0 then Except.error "ZeroDivisionError"
  else
    let scale := sc_scale source_x source_y target_x target_y crop
    let t := derive_targets source_x source_y target_x target_y scale
    let sx2 : ℤ :=
      if resize_invoked scale upscale then pyRound (source_x * scale)
      else source_x
    let sy2 : ℤ :=
      if resize_invoked scale upscale then pyRound (source_y * scale)
      else source_y
    if crop then Except.ok (crop_block_size sx2 sy2 t.1 t.2)
    else Except.ok (sx2, sy2)

-- Helper lemmas about the numeric embedding.

theorem pyTrunc_intCast (n : ℤ) : pyTrunc (n : ℚ) = n := by
  unfold pyTrunc
  split
  · rw [← Int.cast_neg, Int.floor_intCast]
    omega
  · rw [Int.floor_intCast]

theorem pyTrunc_nonneg {q : ℚ} (h : 0 ≤ q) : 0 ≤ pyTrunc q := by
  unfold pyTrunc
  split
  · linarith
  · exact Int.floor_nonneg.mpr h

theorem diff_axis_natCast (s t : ℕ) :
    diff_axis (s : ℤ) ((t : ℕ) : ℚ) = (s : ℤ) - min (s : ℤ) (t : ℤ) := by
  unfold diff_axis
  have h2 : ((s : ℤ) : ℚ) - min ((s : ℤ) : ℚ) ((t : ℕ) : ℚ)
      = (((s : ℤ) - min (s : ℤ) (t : ℤ) : ℤ) : ℚ) := by push_cast; rfl
  rw [h2, pyTrunc_intCast]

theorem diff_axis_nonneg (s : ℤ) (t : ℚ) : 0 ≤ diff_axis s t := by
  unfold diff_axis
  apply pyTrunc_nonneg
  have : min (s : ℚ) t ≤ (s : ℚ) := min_le_left _ _
  linarith

/-- C1: If cropping is requested or either target axis is zero,
`scale_and_crop` uses the cover-fit scale `max(target_x/source_x,
target_y/source_y)`, otherwise the contain-fit scale `min(...)`; a zero
target axis is then derived as `source_axis * scale`; and target `(100,0)`
on a `200×50` source yields an output of size `(100,25)`. -/
theorem scale_selection_spec (sx sy tx ty : ℕ) (crop : Bool)
    (hx : 0 < sx) (hy : 0 < sy) :
    ((crop = true ∨ (tx : ℚ) = 0 ∨ (ty : ℚ) = 0) →
      sc_scale sx sy tx ty crop = max ((tx : ℚ) / sx) ((ty : ℚ) / sy)) ∧
    (crop = false → (tx : ℚ) ≠ 0 → (ty : ℚ) ≠ 0 →
      sc_scale sx sy tx ty crop = min ((tx : ℚ) / sx) ((ty : ℚ) / sy)) ∧
    ((tx : ℚ) = 0 →
      (derive_targets sx sy tx ty (sc_scale sx sy tx ty crop)).1
        = (sx : ℚ) * sc_scale sx sy tx ty crop) ∧
    ((ty : ℚ) = 0 →
      (derive_targets sx sy tx ty (sc_scale sx sy tx ty crop)).2
        = (sy : ℚ) * sc_scale sx sy tx ty crop) ∧
    scale_and_crop_size 200 50 100 0 false false = Except.ok (100, 25) := by
  refine ⟨?_, ?_, ?_, ?_, ?_⟩
  · intro h
    simp only [sc_scale, if_pos h]
  · intro hc h1 h2
    have : ¬ (crop = true ∨ (tx : ℚ) = 0 ∨ (ty : ℚ) = 0) := by
      simp [hc, h1, h2]
    simp only [sc_scale, if_neg this]
  · intro h
    simp only [derive_targets, if_pos h]
  · intro h
    by_cases h0 : (tx : ℚ) = 0
    · -- the `elif` leaves target_y = 0, but the scale is then 0 as well
      have hs : sc_scale sx sy tx ty crop = 0 := by
        unfold sc_scale
        rw [if_pos (Or.inr (Or.inl h0)), h0, h]
        norm_num
      rw [hs, mul_zero]
      simp only [derive_targets, if_pos h0]
      exact h
    · simp only [derive_targets, if_neg h0, if_pos h]
  · have hscale : sc_scale (200 : ℕ) (50 : ℕ) (100 : ℕ) (0 : ℕ) false = 1/2 := by
      unfold sc_scale
      norm_num
    have hder : derive_targets (200 : ℕ) (50 : ℕ) (100 : ℕ) (0 : ℕ) (1/2)
        = (100, 25) := by
      unfold derive_targets
      norm_num
    have hres : resize_invoked (1/2) false = true := by
      unfold resize_invoked
      norm_num
    unfold scale_and_crop_size
    rw [if_neg (by norm_num)]
    simp only [hscale, hder, hres, if_pos, if_neg, Bool.false_eq_true,
      if_false, reduceIte]
    have h100 : pyRound ((200 : ℕ) * (1/2 : ℚ)) = 100 := by
      have : ((200 : ℕ) : ℚ) * (1/2 : ℚ) = ((100 : ℤ) : ℚ) := by norm_num
      rw [this]
      unfold pyRound
      rw [Int.floor_intCast]
      norm_num
    have h25 : pyRound ((50 : ℕ) * (1/2 : ℚ)) = 25 := by
      have : ((50 : ℕ) : ℚ) * (1/2 : ℚ) = ((25 : ℤ) : ℚ) := by norm_num
      rw [this]
      unfold pyRound
      rw [Int.floor_intCast]
      norm_num
    rw [h100, h25]

/-- Witness for `scale_selection_spec` at the claim's concrete input. -/
theorem scale_selection_spec_witness :
    0 < 200 ∧ 0 < 50 ∧
      scale_and_crop_size 200 50 100 0 false false = Except.ok (100, 25) :=
  ⟨by norm_num, by norm_num,
    (scale_selection_spec 200 50 100 0 false (by norm_num) (by norm_num)).2.2.2.2⟩

/-- C10: Round-trip identity.  With `target = source`, `crop` disabled and
`upscale` false, the scale is exactly `1.0`, the resize guard
(`scale < 1.0 or (scale > 1.0 and upscale)`) is false so no resize happens,
and the output size equals the source size exactly. -/
theorem round_trip_identity (w h : ℕ) (hw : 0 < w) (hh : 0 < h) :
    sc_scale w h w h false = 1 ∧
    resize_invoked (sc_scale w h w h false) false = false ∧
    scale_and_crop_size w h w h false false = Except.ok ((w : ℤ), (h : ℤ)) := by
  have hw' : ((w : ℕ) : ℚ) ≠ 0 := by
    have : w ≠ 0 := by omega
    exact_mod_cast this
  have hh' : ((h : ℕ) : ℚ) ≠ 0 := by
    have : h ≠ 0 := by omega
    exact_mod_cast this
  have hs : sc_scale w h w h false = 1 := by
    unfold sc_scale
    rw [if_neg (by simp [hw', hh'])]
    rw [div_self hw', div_self hh']
    simp
  have hr : resize_invoked 1 false = false := by
    unfold resize_invoked
    simp
  refine ⟨hs, by rw [hs]; exact hr, ?_⟩
  unfold scale_and_crop_size
  rw [if_neg (by omega)]
  simp only [hs, hr, Bool.false_eq_true, if_false, reduceIte]

/-- Witness for `round_trip_identity`. -/
theorem round_trip_identity_witness :
    0 < 7 ∧ 0 < 5 ∧
      scale_and_crop_size 7 5 7 5 false false = Except.ok ((7 : ℤ), (5 : ℤ)) :=
  ⟨by norm_num, by norm_num,
    (round_trip_identity 7 5 (by norm_num) (by norm_num)).2.2⟩

/-- C7 counterexample: with both target axes zero, `scale_and_crop` does NOT
fail; the scale resolves to `0.0`, the image is resized to `(0,0)` and
returned silently — there is no `InvalidTargetSize` anywhere in the code. -/
theorem zero_target_counterexample :
    scale_and_crop_size 200 50 0 0 false false = Except.ok (0, 0) := by
  have hs : sc_scale (200 : ℕ) (50 : ℕ) (0 : ℕ) (0 : ℕ) false = 0 := by
    unfold sc_scale
    norm_num
  have h0 : pyRound ((200 : ℕ) * (0 : ℚ)) = 0 := by
    have : ((200 : ℕ) : ℚ) * (0 : ℚ) = ((0 : ℤ) : ℚ) := by norm_num
    rw [this]
    unfold pyRound
    rw [Int.floor_intCast]
    norm_num
  have h1 : pyRound ((50 : ℕ) * (0 : ℚ)) = 0 := by
    have : ((50 : ℕ) : ℚ) * (0 : ℚ) = ((0 : ℤ) : ℚ) := by norm_num
    rw [this]
    unfold pyRound
    rw [Int.floor_intCast]
    norm_num
  have hr : resize_invoked (0 : ℚ) false = true := by
    unfold resize_invoked
    norm_num
  unfold scale_and_crop_size
  rw [if_neg (by norm_num)]
  simp only [hs, hr, if_pos, reduceIte, Bool.false_eq_true, if_false, h0, h1]

/-- C7 amended: calling `scale_and_crop` with both target axes zero raises no
error for any positive source: the scale resolves to `0.0` and a `0×0` image
is produced silently. -/
theorem zero_target_amended (sx sy : ℕ) (crop upscale : Bool)
    (hx : 0 < sx) (hy : 0 < sy) :
    scale_and_crop_size sx sy 0 0 crop upscale = Except.ok (0, 0) := by
  have hs : sc_scale sx sy 0 0 crop = 0 := by
    unfold sc_scale
    rw [if_pos (by norm_num)]
    norm_num
  have hx0 : pyRound ((sx : ℚ) * (0 : ℚ)) = 0 := by
    rw [mul_zero]
    have : (0 : ℚ) = ((0 : ℤ) : ℚ) := by norm_num
    rw [this]
    unfold pyRound
    rw [Int.floor_intCast]
    norm_num
  have hy0 : pyRound ((sy : ℚ) * (0 : ℚ)) = 0 := by
    rw [mul_zero]
    have : (0 : ℚ) = ((0 : ℤ) : ℚ) := by norm_num
    rw [this]
    unfold pyRound
    rw [Int.floor_intCast]
    norm_num
  have hr : resize_invoked (0 : ℚ) upscale = true := by
    unfold resize_invoked
    norm_num
  have hder : derive_targets (sx : ℚ) (sy : ℚ) ((0 : ℕ) : ℚ) ((0 : ℕ) : ℚ) 0
      = (0, 0) := by
    unfold derive_targets
    norm_num
  unfold scale_and_crop_size
  rw [if_neg (by omega)]
  simp only [Nat.cast_zero] at hder ⊢
  simp only [hs, hr, hder, if_pos, reduceIte, hx0, hy0]
  cases crop with
  | false => rfl
  | true =>
      simp only [reduceIte]
      unfold crop_block_size
      have hd : diff_axis 0 (0 : ℚ) = 0 := by
        have := diff_axis_natCast 0 0
        simpa using this
      rw [if_neg (by simp [hd])]

/-- Witness for `zero_target_amended`. -/
theorem zero_target_amended_witness :
    0 < 300 ∧ 0 < 70 ∧
      scale_and_crop_size 300 70 0 0 true true = Except.ok (0, 0) :=
  ⟨by norm_num, by norm_num,
    zero_target_amended 300 70 true true (by norm_num) (by norm_num)⟩

theorem pyTrunc_natCast (n : ℕ) : pyTrunc ((n : ℕ) : ℚ) = (n : ℤ) := by
  have h : ((n : ℕ) : ℚ) = (((n : ℕ) : ℤ) : ℚ) := by push_cast; rfl
  rw [h, pyTrunc_intCast]

/-- C2: For a crop request with integer targets, the default (centered) crop
box removes `diff // 2` pixels from the left/top and the remaining
`diff - diff // 2` pixels from the right/bottom of each axis (the two halves
differ by at most one pixel), and when both diffs are zero no crop is applied
at all. -/
theorem centered_crop_spec (sx sy tx ty : ℕ) :
    (centered_box sx sy tx ty).1 = diff_axis sx tx / 2 ∧
    (centered_box sx sy tx ty).2.1 = diff_axis sy ty / 2 ∧
    (sx : ℤ) - (centered_box sx sy tx ty).2.2.1
      = diff_axis sx tx - diff_axis sx tx / 2 ∧
    (sy : ℤ) - (centered_box sx sy tx ty).2.2.2
      = diff_axis sy ty - diff_axis sy ty / 2 ∧
    0 ≤ (diff_axis sx tx - diff_axis sx tx / 2) - diff_axis sx tx / 2 ∧
    (diff_axis sx tx - diff_axis sx tx / 2) - diff_axis sx tx / 2 ≤ 1 ∧
    (diff_axis sx tx = 0 ∧ diff_axis sy ty = 0 →
      crop_block_size sx sy tx ty = ((sx : ℤ), (sy : ℤ))) := by
  have hdx := diff_axis_natCast sx tx
  have hdy := diff_axis_natCast sy ty
  have htx := pyTrunc_natCast tx
  have hty := pyTrunc_natCast ty
  refine ⟨?_, ?_, ?_, ?_, ?_, ?_, ?_⟩
  · simp only [centered_box]
  · simp only [centered_box]
  · simp only [centered_box, htx, hdx]
    omega
  · simp only [centered_box, hty, hdy]
    omega
  · omega
  · rw [hdx]
    omega
  · intro ⟨h1, h2⟩
    unfold crop_block_size
    rw [if_neg (by simp [h1, h2])]

/-- Witness for `centered_crop_spec` (both diffs zero, no crop applied). -/
theorem centered_crop_spec_witness :
    (diff_axis ((10 : ℕ) : ℤ) ((10 : ℕ) : ℚ) = 0 ∧
      diff_axis ((10 : ℕ) : ℤ) ((10 : ℕ) : ℚ) = 0) ∧
    crop_block_size ((10 : ℕ) : ℤ) ((10 : ℕ) : ℤ) ((10 : ℕ) : ℚ)
      ((10 : ℕ) : ℚ) = (((10 : ℕ) : ℤ), ((10 : ℕ) : ℤ)) := by
  have h0 : diff_axis ((10 : ℕ) : ℤ) ((10 : ℕ) : ℚ) = 0 := by
    have := diff_axis_natCast 10 10
    omega
  exact ⟨⟨h0, h0⟩, (centered_crop_spec 10 10 10 10).2.2.2.2.2.2 ⟨h0, h0⟩⟩

/-- Longest leading run of ASCII digits of a character list (the greedy
`\d+` of the edge-crop regex). -/
def takeDigits : List Char → List Char × List Char
  | [] => ([], [])
  | c :: cs =>
      if c.isDigit then
        let p := takeDigits cs
        (c :: p.1, p.2)
      else ([], c :: cs)

/-- Python `int` on a digit string (the regex guarantees at least one
digit and no sign here). -/
def digitsToNat (ds : List Char) : ℕ :=
  ds.foldl (fun acc c => 10 * acc + (c.toNat - 48)) 0

/-- One `(?:(-?)(\d+))?` group of the edge-crop regex: an optional minus sign
followed by one or more digits.  Returns the parsed group (sign-present,
value) when it matches, together with the unconsumed input.  A bare `-` not
followed by a digit fails the group, leaving the input untouched (the overall
match then fails at the following `,`). -/
def parse_axis_group : List Char → Option (Bool × ℕ) × List Char
  | [] => (none, [])
  | '-' :: cs =>
      match takeDigits cs with
      | ([], _) => (none, '-' :: cs)
      | (ds, rest) => (some (true, digitsToNat ds), rest)
  | c :: cs =>
      if c.isDigit then
        match takeDigits (c :: cs) with
        | (ds, rest) => (some (false, digitsToNat ds), rest)
      else (none, c :: cs)

/-- `scale_and_crop`, lines 173-176: the edge-crop descriptor match
`re.match(r'(?:(-?)(\d+))?,(?:(-?)(\d+))?$', crop)` and its `groups()`:
`none` when the string does not match, otherwise the two optional
`(sign, percentage)` groups.  (Python's `$` also matches just before one
trailing newline.) -/
def edge_crop_groups (s : String) : Option (Option (Bool × ℕ) × Option (Bool × ℕ)) :=
  let p1 := parse_axis_group s.data
  match p1.2 with
  | ',' :: r2 =>
      let p2 := parse_axis_group r2
      match p2.2 with
      | [] => some (p1.1, p2.1)
      | ['\n'] => some (p1.1, p2.1)
      | _ => none
  | _ => none

/-- `scale_and_crop`, lines 176-192: the edge-crop box.  Starts from the
centered box; each present group replaces its axis with an offset of
`min(int(target) * pct // 100, diff)` pixels anchored at the chosen edge. -/
def edge_box (source_x source_y : ℤ) (target_x target_y : ℚ)
    (gx gy : Option (Bool × ℕ)) : ℤ × ℤ × ℤ × ℤ :=
  let b := centered_box source_x source_y target_x target_y
  let diff_x := diff_axis source_x target_x
  let diff_y := diff_axis source_y target_y
  let bx : ℤ × ℤ :=
    match gx with
    | none => (b.1, b.2.2.1)
    | some (x_right, x_crop) =>
        let off := min (pyTrunc target_x * x_crop / 100) diff_x
        if x_right then (diff_x - off, source_x - off)
        else (off, source_x - (diff_x - off))
  let byy : ℤ × ℤ :=
    match gy with
    | none => (b.2.1, b.2.2.2)
    | some (y_bottom, y_crop) =>
        let off := min (pyTrunc target_y * y_crop / 100) diff_y
        if y_bottom then (diff_y - off, source_y - off)
        else (off, source_y - (diff_y - off))
  (bx.1, byy.1, bx.2, byy.2)

/-- C3: Edge cropping handles each axis independently: a present numeric
group yields an offset of `min(int(target) * pct // 100, diff)` pixels
anchored at the left/top edge (box start = offset), or at the right/bottom
edge when the group carries a `-` sign (box end = source − offset); an
absent group keeps that axis centered.  `"-10,-0"` parses to a
right-anchored 10% x group and a bottom-anchored 0% y group, and `",0"`
parses to no x group (centered) with a top-anchored 0% y group that crops
from the top edge. -/
theorem edge_crop_spec (sx sy : ℤ) (tx ty : ℚ) (p : ℕ)
    (gx gy : Option (Bool × ℕ)) :
    (edge_box sx sy tx ty (some (false, p)) gy).1
      = min (pyTrunc tx * p / 100) (diff_axis sx tx) ∧
    (edge_box sx sy tx ty (some (false, p)) gy).2.2.1
      = sx - (diff_axis sx tx - min (pyTrunc tx * p / 100) (diff_axis sx tx)) ∧
    (edge_box sx sy tx ty (some (true, p)) gy).2.2.1
      = sx - min (pyTrunc tx * p / 100) (diff_axis sx tx) ∧
    (edge_box sx sy tx ty (some (true, p)) gy).1
      = diff_axis sx tx - min (pyTrunc tx * p / 100) (diff_axis sx tx) ∧
    (edge_box sx sy tx ty none gy).1 = (centered_box sx sy tx ty).1 ∧
    (edge_box sx sy tx ty none gy).2.2.1 = (centered_box sx sy tx ty).2.2.1 ∧
    (edge_box sx sy tx ty gx (some (false, p))).2.1
      = min (pyTrunc ty * p / 100) (diff_axis sy ty) ∧
    (edge_box sx sy tx ty gx (some (false, p))).2.2.2
      = sy - (diff_axis sy ty - min (pyTrunc ty * p / 100) (diff_axis sy ty)) ∧
    (edge_box sx sy tx ty gx (some (true, p))).2.2.2
      = sy - min (pyTrunc ty * p / 100) (diff_axis sy ty) ∧
    (edge_box sx sy tx ty gx (some (true, p))).2.1
      = diff_axis sy ty - min (pyTrunc ty * p / 100) (diff_axis sy ty) ∧
    (edge_box sx sy tx ty gx none).2.1 = (centered_box sx sy tx ty).2.1 ∧
    (edge_box sx sy tx ty gx none).2.2.2 = (centered_box sx sy tx ty).2.2.2 ∧
    edge_crop_groups "-10,-0" = some (some (true, 10), some (true, 0)) ∧
    edge_crop_groups ",0" = some (none, some (false, 0)) ∧
    (edge_box sx sy tx ty none (some (false, 0))).2.1 = 0 ∧
    (edge_box sx sy tx ty none (some (false, 0))).2.2.2
      = sy - diff_axis sy ty := by
  have hoff0 : min (pyTrunc ty * (0 : ℕ) / 100) (diff_axis sy ty) = 0 := by
    have := diff_axis_nonneg sy ty
    simp
    omega
  refine ⟨?_, ?_, ?_, ?_, ?_, ?_, ?_, ?_, ?_, ?_, ?_, ?_, ?_, ?_, ?_, ?_⟩
  · simp [edge_box]
  · simp [edge_box]
  · simp [edge_box]
  · simp [edge_box]
  · cases gy with
    | none => simp [edge_box]
    | some g => rcases g with ⟨b, q⟩; simp [edge_box]
  · cases gy with
    | none => simp [edge_box]
    | some g => rcases g with ⟨b, q⟩; simp [edge_box]
  · cases gx with
    | none => simp [edge_box]
    | some g => rcases g with ⟨b, q⟩; simp [edge_box]
  · cases gx with
    | none => simp [edge_box]
    | some g => rcases g with ⟨b, q⟩; simp [edge_box]
  · cases gx with
    | none => simp [edge_box]
    | some g => rcases g with ⟨b, q⟩; simp [edge_box]
  · cases gx with
    | none => simp [edge_box]
    | some g => rcases g with ⟨b, q⟩; simp [edge_box]
  · cases gx with
    | none => simp [edge_box]
    | some g => rcases g with ⟨b, q⟩; simp [edge_box]
  · cases gx with
    | none => simp [edge_box]
    | some g => rcases g with ⟨b, q⟩; simp [edge_box]
  · decide
  · decide
  · simp [edge_box, hoff0]
    exact diff_axis_nonneg sy ty
  · simp [edge_box, hoff0]
    exact diff_axis_nonneg sy ty

/-- `_compare_entropy` (lines 13-31): decides how much of a `slice`-wide step
to remove from the start and from the end of an axis, from the entropies of
the two edge slices.  `if end_entropy` is Python float truthiness
(`end_entropy ≠ 0`); `slice // 2` is floor division, which for the
nonnegative slices of the algorithm is `Int.ediv`. -/
def _compare_entropy (start_entropy end_entropy : ℚ) (slice difference : ℤ) :
    ℤ × ℤ :=
  if end_entropy ≠ 0 ∧ |start_entropy / end_entropy - 1| < 1/100 then
    if difference ≥ slice * 2 then (slice, slice)
    else (slice / 2, slice - slice / 2)
  else if start_entropy > end_entropy then (0, slice)
  else (slice, 0)

/-- `scale_and_crop`, lines 198 and 206: the per-iteration slice width
`slice = min(diff, max(diff // 5, 10))`. -/
def slice_width (diff : ℤ) : ℤ := min diff (max (diff / 5) 10)

/-- One smart-crop axis loop (`scale_and_crop`, lines 197-204 and 205-212),
parameterised by an entropy oracle `ent` giving the entropies of the start
and end slices extracted from the image at the current `(left, right, slice)`
state (both axis loops have this shape).  Python's `while diff:` loop is
modelled with explicit fuel: `none` means the loop has not finished within
`fuel` iterations; `some (left, right)` is returned exactly when the
remaining diff hits zero. -/
def smart_axis_loop (ent : ℤ → ℤ → ℤ → ℚ × ℚ) :
    ℕ → ℤ → ℤ → ℤ → Option (ℤ × ℤ)
  | 0, left, right, diff => if diff = 0 then some (left, right) else none
  | fuel + 1, left, right, diff =>
      if diff = 0 then some (left, right)
      else
        let slice := slice_width diff
        let es := ent left right slice
        let ar := _compare_entropy es.1 es.2 slice diff
        smart_axis_loop ent fuel (left + ar.1) (right - ar.2)
          (diff - ar.1 - ar.2)

/-- C4: When the end entropy is nonzero and the two entropies agree within
1%, the removal is split between both edges — a full slice from each edge
when the remaining difference is at least twice the slice, otherwise
`slice // 2` from the start and the remainder from the end; otherwise the
whole slice is removed from the edge with strictly lower entropy and the
other edge loses nothing. -/
theorem compare_entropy_spec (se ee : ℚ) (s d : ℤ) :
    (ee ≠ 0 → |se / ee - 1| < 1/100 →
      (s * 2 ≤ d → _compare_entropy se ee s d = (s, s)) ∧
      (d < s * 2 → _compare_entropy se ee s d = (s / 2, s - s / 2))) ∧
    (¬ (ee ≠ 0 ∧ |se / ee - 1| < 1/100) →
      (ee < se → _compare_entropy se ee s d = (0, s)) ∧
      (se < ee → _compare_entropy se ee s d = (s, 0))) := by
  constructor
  · intro h1 h2
    constructor
    · intro h3
      unfold _compare_entropy
      rw [if_pos ⟨h1, h2⟩, if_pos (by omega)]
    · intro h3
      unfold _compare_entropy
      rw [if_pos ⟨h1, h2⟩, if_neg (by omega)]
  · intro h
    constructor
    · intro hlt
      unfold _compare_entropy
      rw [if_neg h, if_pos hlt]
    · intro hlt
      unfold _compare_entropy
      rw [if_neg h, if_neg (by exact not_lt.mpr (le_of_lt hlt))]

/-- Witness for `compare_entropy_spec`: equal entropies, `d ≥ 2s`. -/
theorem compare_entropy_spec_witness :
    (1 : ℚ) ≠ 0 ∧ |(1 : ℚ) / 1 - 1| < 1/100 ∧ (4 : ℤ) * 2 ≤ 10 ∧
      _compare_entropy 1 1 4 10 = (4, 4) :=
  ⟨by norm_num, by norm_num, by norm_num,
    ((compare_entropy_spec 1 1 4 10).1 (by norm_num) (by norm_num)).1
      (by norm_num)⟩

-- Step bounds for the smart-crop loop.

theorem compare_entropy_total (se ee : ℚ) {s d : ℤ} (hs : 0 < s)
    (hd : s ≤ d) :
    s ≤ (_compare_entropy se ee s d).1 + (_compare_entropy se ee s d).2 ∧
    (_compare_entropy se ee s d).1 + (_compare_entropy se ee s d).2 ≤ 2 * s ∧
    (_compare_entropy se ee s d).1 + (_compare_entropy se ee s d).2 ≤ d := by
  unfold _compare_entropy
  split
  · split
    · constructor
      · simp <;> omega
      · simp <;> omega
    · constructor
      · simp <;> omega
      · simp <;> omega
  · split
    · constructor
      · simp <;> omega
      · simp <;> omega
    · constructor
      · simp <;> omega
      · simp <;> omega

theorem slice_width_bounds {d : ℤ} (hd : 0 < d) :
    0 < slice_width d ∧ slice_width d ≤ d := by
  unfold slice_width
  omega

theorem smart_axis_loop_isSome (ent : ℤ → ℤ → ℤ → ℚ × ℚ) :
    ∀ (fuel : ℕ) (diff : ℤ), 0 ≤ diff → diff ≤ fuel →
      ∀ (left right : ℤ),
        (smart_axis_loop ent fuel left right diff).isSome = true := by
  intro fuel
  induction fuel with
  | zero =>
      intro diff h1 h2 left right
      have : diff = 0 := by omega
      simp [smart_axis_loop, this]
  | succ n ih =>
      intro diff h1 h2 left right
      by_cases h0 : diff = 0
      · simp [smart_axis_loop, h0]
      · have hdpos : 0 < diff := by omega
        obtain ⟨hs1, hs2⟩ := slice_width_bounds hdpos
        have hb := compare_entropy_total
          (ent left right (slice_width diff)).1
          (ent left right (slice_width diff)).2 hs1 hs2
        simp only [smart_axis_loop, if_neg h0]
        exact ih _ (by omega) (by omega) _ _

/-- C5: Both smart-crop axis loops terminate.  Each iteration takes
`slice = min(diff, max(diff // 5, 10))`, which is positive and at most the
remaining diff, and `_compare_entropy` removes a total of at least `slice`
and at most `2*slice` pixels, never more than the remaining diff — so the
diff strictly decreases, stays nonnegative, and the loop (here with fuel
`diff`, an upper bound on the iteration count) finishes; by construction
`smart_axis_loop` returns `some` exactly when the remaining diff reaches
zero. -/
theorem smart_crop_termination (ent : ℤ → ℤ → ℤ → ℚ × ℚ)
    (left right diff : ℤ) (h : 0 ≤ diff) :
    (∀ (se ee : ℚ) (d : ℤ), 0 < d →
      0 < slice_width d ∧ slice_width d ≤ d ∧
      slice_width d ≤ (_compare_entropy se ee (slice_width d) d).1
        + (_compare_entropy se ee (slice_width d) d).2 ∧
      (_compare_entropy se ee (slice_width d) d).1
        + (_compare_entropy se ee (slice_width d) d).2 ≤ 2 * slice_width d ∧
      (_compare_entropy se ee (slice_width d) d).1
        + (_compare_entropy se ee (slice_width d) d).2 ≤ d) ∧
    (smart_axis_loop ent diff.toNat left right diff).isSome = true := by
  constructor
  · intro se ee d hd
    obtain ⟨hs1, hs2⟩ := slice_width_bounds hd
    obtain ⟨h1, h2, h3⟩ := compare_entropy_total se ee hs1 hs2
    exact ⟨hs1, hs2, h1, h2, h3⟩
  · exact smart_axis_loop_isSome ent diff.toNat diff h (by omega) left right

/-- A constant entropy oracle, used only to witness `smart_crop_termination`
at a concrete input. -/
def const_ent : ℤ → ℤ → ℤ → ℚ × ℚ := fun _ _ _ => (1, 1)

/-- Witness for `smart_crop_termination`. -/
theorem smart_crop_termination_witness :
    (0 : ℤ) ≤ 25 ∧
      (smart_axis_loop const_ent (25 : ℤ).toNat 0 100 25).isSome = true :=
  ⟨by norm_num, (smart_crop_termination const_ent 0 100 25 (by norm_num)).2⟩

/-- Python `range(start, stop, step)` for a positive step, over `ℤ`, with
explicit fuel (the number of elements is at most `(stop - start).toNat` when
`step ≥ 1`). -/
def rangeZAux (step : ℕ) : ℕ → ℤ → ℤ → List ℤ
  | 0, _, _ => []
  | fuel + 1, start, stop =>
      if start < stop then start :: rangeZAux step fuel (start + step) stop
      else []

/-- Python `range(start, stop, step)` for a positive step. -/
def rangeZ (start stop : ℤ) (step : ℕ) : List ℤ :=
  rangeZAux step (stop - start).toNat start stop

/-- `watermark`, lines 427-431: the tile origins along one axis.  The first
origin is `position % mark_size - mark_size` (Python `%` with a positive
modulus is `Int.emod`), and origins advance by `mark_size` while below the
canvas size. -/
def tile_coords (position canvas : ℤ) (mark : ℕ) : List ℤ :=
  rangeZ (position.emod mark - mark) canvas mark

theorem rangeZAux_mem {step : ℕ} (hs : 0 < step) :
    ∀ (fuel : ℕ) (start stop a : ℤ), (stop - start).toNat ≤ fuel →
      (a ∈ rangeZAux step fuel start stop ↔
        ∃ k : ℕ, a = start + k * step ∧ a < stop) := by
  intro fuel
  induction fuel with
  | zero =>
      intro start stop a hf
      simp only [rangeZAux, List.not_mem_nil, false_iff]
      rintro ⟨k, rfl, hlt⟩
      have hk : 0 ≤ (k : ℤ) * step := by positivity
      omega
  | succ n ih =>
      intro start stop a hf
      by_cases h : start < stop
      · simp only [rangeZAux, if_pos h, List.mem_cons]
        rw [ih (start + step) stop a (by omega)]
        constructor
        · rintro (rfl | ⟨k, rfl, hlt⟩)
          · exact ⟨0, by simp, h⟩
          · exact ⟨k + 1, by push_cast; ring, hlt⟩
        · rintro ⟨k, rfl, hlt⟩
          cases k with
          | zero => left; simp
          | succ m =>
              right
              exact ⟨m, by push_cast; ring, hlt⟩
      · simp only [rangeZAux, if_neg h, List.not_mem_nil, false_iff]
        rintro ⟨k, rfl, hlt⟩
        have hk : 0 ≤ (k : ℤ) * step := by positivity
        omega

theorem tile_coords_mem {mark : ℕ} (hm : 0 < mark) (position canvas a : ℤ) :
    a ∈ tile_coords position canvas mark ↔
      ∃ k : ℕ, a = position.emod mark - mark + k * mark ∧ a < canvas := by
  exact rangeZAux_mem hm _ _ _ _ (le_refl _)

/-- C6: For a tiled watermark, the axis origins are exactly
`position % mark_size - mark_size + k * mark_size` for `k ≥ 0` below the
canvas size, and every canvas pixel lies under some tile; concretely, a
`50×50` mark tiled at position `(10,10)` on a `200×200` canvas has x origins
`[-40, 10, 60, 110, 160]` (and the same list for y), so the first tile sits
at `(-40,-40)` with a 50px stride. -/
theorem watermark_tiling_spec (w h : ℕ) (hw : 0 < w) (hh : 0 < h)
    (posx posy cw ch : ℤ) :
    (∀ a, a ∈ tile_coords posx cw w ↔
      ∃ k : ℕ, a = posx.emod w - w + k * w ∧ a < cw) ∧
    (∀ a, a ∈ tile_coords posy ch h ↔
      ∃ k : ℕ, a = posy.emod h - h + k * h ∧ a < ch) ∧
    (∀ px py : ℤ, 0 ≤ px → px < cw → 0 ≤ py → py < ch →
      ∃ x ∈ tile_coords posx cw w, ∃ y ∈ tile_coords posy ch h,
        x ≤ px ∧ px < x + w ∧ y ≤ py ∧ py < y + h) ∧
    tile_coords 10 200 50 = [-40, 10, 60, 110, 160] := by
  have cover : ∀ (m : ℕ) (pos canvas pt : ℤ), 0 < m → 0 ≤ pt → pt < canvas →
      ∃ x ∈ tile_coords pos canvas m, x ≤ pt ∧ pt < x + m := by
    intro m pos canvas pt hm hp1 hp2
    set first := pos.emod m - m with hfirst
    have hmod1 : 0 ≤ pos.emod m := Int.emod_nonneg pos (by exact_mod_cast hm.ne')
    have hmod2 : pos.emod m < m := Int.emod_lt_of_pos pos (by exact_mod_cast hm)
    have hneg : first < 0 := by omega
    have hd : 0 ≤ pt - first := by omega
    set dn := (pt - first).toNat with hdn
    have hdz : (dn : ℤ) = pt - first := Int.toNat_of_nonneg hd
    set q := dn / m with hq
    set r := dn % m with hr
    have hqr : dn = m * q + r := (Nat.div_add_mod dn m).symm
    have hrm : r < m := Nat.mod_lt _ hm
    refine ⟨first + q * m, ?_, ?_, ?_⟩
    · rw [tile_coords_mem hm]
      refine ⟨q, rfl, ?_⟩
      have : (q : ℤ) * m ≤ dn := by
        have := hqr
        push_cast [this]
        nlinarith [Nat.zero_le r]
      omega
    · have : (q : ℤ) * m ≤ dn := by
        have := hqr
        push_cast [this]
        nlinarith [Nat.zero_le r]
      omega
    · have : (dn : ℤ) < (q : ℤ) * m + m := by
        have h1 : (dn : ℤ) = (m : ℤ) * q + r := by exact_mod_cast hqr
        have h2 : (r : ℤ) < m := by exact_mod_cast hrm
        nlinarith
      omega
  refine ⟨fun a => tile_coords_mem hw posx cw a,
          fun a => tile_coords_mem hh posy ch a,
          ?_, ?_⟩
  · intro px py hx1 hx2 hy1 hy2
    obtain ⟨x, hxmem, hxa, hxb⟩ := cover w posx cw px hw hx1 hx2
    obtain ⟨y, hymem, hya, hyb⟩ := cover h posy ch py hh hy1 hy2
    exact ⟨x, hxmem, y, hymem, hxa, hxb, hya, hyb⟩
  · decide

/-- Witness for `watermark_tiling_spec`, at the claim's concrete input. -/
theorem watermark_tiling_spec_witness :
    0 < 50 ∧ tile_coords 10 200 50 = [-40, 10, 60, 110, 160] :=
  ⟨by norm_num,
    (watermark_tiling_spec 50 50 (by norm_num) (by norm_num)
      10 10 200 200).2.2.2⟩

/-- The names bound at module level by `processors.py` (lines 1-10):
`import re`, `import six`, the PIL imports and `utils`.  Neither `os` nor
`random` (nor `ImageEnhance`) is ever imported. -/
def processors_imports : List String :=
  ["re", "six", "Image", "ImageChops", "ImageFilter", "utils"]

/-- Python name resolution against the module globals: a bare name that is
not bound raises `NameError` at evaluation time. -/
def name_defined (n : String) : Bool := processors_imports.contains n

/-- `add_watermark` (lines 437-458), modelled at the level of its
control/error flow; `im` is the (abstract) input image and `mark` the
truthiness of the `mark` argument.  The guard `os.path.exists(mark)` on
line 439 sits OUTSIDE the `try`/`except`, and its first evaluation step is
resolving the bare name `os`; when that fails the `NameError` propagates to
the caller.  The `try: ... except: pass` body (which would swallow every
exception and return `im`) is reachable only if `os` resolves. -/
def add_watermark (im : ℤ) (mark : Bool) : Except String ℤ :=
  if mark then
    if name_defined "os" then
      Except.ok im
    else Except.error "NameError: name os is not defined"
  else Except.ok im

/-- C8 (code bug): for any truthy `mark`, `add_watermark` raises `NameError`
(the `os` module is never imported and `os.path.exists` is evaluated outside
the `try` block) instead of swallowing failures and returning the image
unchanged. -/
theorem add_watermark_name_error (im : ℤ) :
    add_watermark im true = Except.error "NameError: name os is not defined" ∧
    add_watermark im true ≠ Except.ok im := by
  constructor
  · rfl
  · intro h
    simp [add_watermark, name_defined, processors_imports] at h

/-- A `position` argument of `watermark`/`determine_position`: a 2-tuple, a
string, or `None`. -/
inductive PosArg where
  | tup (left top : ℤ)
  | str (s : String)
  | nonePos
deriving DecidableEq

/-- Python truthiness of a position value: `None` and the empty string are
falsy; every 2-tuple (including `(0, 0)`) is truthy. -/
def pos_falsy : PosArg → Bool
  | PosArg.nonePos => true
  | PosArg.str s => s.isEmpty
  | PosArg.tup _ _ => false

/-- Python `var.strip(c)`: remove every leading and trailing copy of `c`. -/
def strip_char (c : Char) (s : List Char) : List Char :=
  ((s.dropWhile (· = c)).reverse.dropWhile (· = c)).reverse

/-- Python `int(str)`: an optional sign followed by one or more digits
(surrounding whitespace and underscore grouping are not exercised by any
claim). -/
def py_int_parse : List Char → Option ℤ
  | [] => none
  | '-' :: ds =>
      if ds ≠ [] ∧ ds.all Char.isDigit then some (-(digitsToNat ds : ℤ))
      else none
  | '+' :: ds =>
      if ds ≠ [] ∧ ds.all Char.isDigit then some (digitsToNat ds : ℤ)
      else none
  | ds =>
      if ds ≠ [] ∧ ds.all Char.isDigit then some (digitsToNat ds : ℤ)
      else none

/-- Python `s.lower()` (ASCII casefolding suffices for the option strings
involved). -/
def py_lower (s : String) : String := String.mk (s.data.map Char.toLower)

/-- Python `s.split(c)` for a one-character separator. -/
def split_on_char (c : Char) : List Char → List (List Char)
  | [] => [[]]
  | d :: rest =>
      let r := split_on_char c rest
      if d = c then [] :: r
      else
        match r with
        | h :: t => (d :: h) :: t
        | [] => [[d]]

/-- `_percent`/`_val` (lines 264-291) with `is_percent=True`:
`float(int(var.strip('%')) / 100.0)`. -/
def _percent (s : List Char) : Except String ℚ :=
  match py_int_parse (strip_char '%' s) with
  | some n => Except.ok ((n : ℚ) / 100)
  | none => Except.error ("ValueError: invalid watermark parameter: " ++ String.mk s)

/-- `_int`/`_val` (lines 270-291) with `is_percent=False`: `int(var)`. -/
def _int (s : List Char) : Except String ℤ :=
  match py_int_parse s with
  | some n => Except.ok n
  | none => Except.error ("ValueError: invalid watermark parameter: " ++ String.mk s)

/-- `determine_position` (lines 341-403).  A falsy `position` defaults to
`'r'`; a tuple is returned as-is; corner codes, `'c'`, `'r'` and the
`XxY`-style relative strings follow the source branch for branch.  The
`'r'` branch evaluates `random.randint(0, max_left)`, whose first step is
resolving the bare name `random` — which is not among the module imports, so
it raises `NameError`.  A non-matching string leaves `left`/`top` unbound
(`UnboundLocalError` at the final `return`). -/
def determine_position (position : PosArg) (imgW imgH markW markH : ℤ) :
    Except String (ℤ × ℤ) :=
  let max_left := max (imgW - markW) 0
  let max_top := max (imgH - markH) 0
  let position := if pos_falsy position then PosArg.str "r" else position
  match position with
  | PosArg.tup l t => Except.ok (l, t)
  | PosArg.nonePos => Except.error "UnboundLocalError"
  | PosArg.str s =>
      let p := py_lower s
      if p = "tl" ∨ p = "tr" ∨ p = "br" ∨ p = "bl" then
        Except.ok ((if p.data.contains 'l' then 0 else max_left),
                   (if p.data.contains 't' then 0 else max_top))
      else if p = "c" then Except.ok (max_left / 2, max_top / 2)
      else if p = "r" then
        if name_defined "random" then
          Except.error "unreachable: random.randint"
        else Except.error "NameError: name random is not defined"
      else if p.data.contains 'x' then
        match split_on_char 'x' p.data with
        | [l, t] => do
            let lv : ℚ ←
              if l.contains '%' then do
                let pc ← _percent l
                pure ((max_left : ℚ) * pc)
              else do
                let n ← _int l
                pure ((n : ℤ) : ℚ)
            let tv : ℚ ←
              if t.contains '%' then do
                let pc ← _percent t
                pure ((max_top : ℚ) * pc)
              else do
                let n ← _int t
                pure ((n : ℤ) : ℚ)
            pure (pyTrunc lv, pyTrunc tv)
        | _ => Except.error "ValueError: too many values to unpack"
      else Except.error "UnboundLocalError"

/-- The position `watermark` and `add_watermark` use when the caller supplies
none: both default it to the literal tuple `(0, 0)` (lines 407 and 442). -/
def watermark_default_position : PosArg := PosArg.tup 0 0

/-- C9 counterexample: a falsy position (the only way to reach the `'r'`
default inside `determine_position`) does not resolve to a uniformly random
point — it raises `NameError`, because `random` is never imported. -/
theorem default_position_counterexample :
    determine_position PosArg.nonePos 200 200 50 50
      = Except.error "NameError: name random is not defined" := by
  rfl

/-- C9 amended: a tuple position is returned as-is, so the `(0, 0)` default
that `add_watermark`/`watermark` pass when the caller supplies no position
resolves deterministically to the top-left corner `(0, 0)` — never randomly;
and the falsy-position default `'r'` raises `NameError` since `random` is
not imported. -/
theorem default_position_amended (imgW imgH markW markH l t : ℤ)
    (pos : PosArg) :
    determine_position (PosArg.tup l t) imgW imgH markW markH
      = Except.ok (l, t) ∧
    determine_position watermark_default_position imgW imgH markW markH
      = Except.ok (0, 0) ∧
    (pos_falsy pos = true →
      determine_position pos imgW imgH markW markH
        = Except.error "NameError: name random is not defined") := by
  refine ⟨rfl, rfl, ?_⟩
  intro hp
  unfold determine_position
  rw [if_pos hp]
  rfl

/-- Witness for `default_position_amended`. -/
theorem default_position_amended_witness :
    pos_falsy PosArg.nonePos = true ∧
      determine_position PosArg.nonePos 200 200 50 50
        = Except.error "NameError: name random is not defined" :=
  ⟨rfl, (default_position_amended 200 200 50 50 0 0 PosArg.nonePos).2.2 rfl⟩
